import Mathlib

/-!
Verification of the segmented-download engine of the `gdl` repository.

The Go sources are shallowly embedded: pure string/JSON/arithmetic logic is
translated into executable Lean functions, and the effectful parts (HTTP
requests, file writes, sleeps) are modelled by passing the observed responses
in as data and recording the emitted effects (file writes, sleep durations,
printed errors, sidecar removal) as data in the results.  Go `int64` values
are modelled as `Int` (no quantity in the claims approaches 2^63), and Go
`string` values as Lean `String`.
-/

namespace GDL

/-! ## Data model (pkg/downloader/state.go)

`ChunkState` and `DownloadState` mirror the Go structs.  The `sync.Mutex`
field of the Go `DownloadState` is synchronization-only state with no
observable value and is not modelled. -/

structure ChunkState where
  ID : Int
  Start : Int
  End : Int
  Downloaded : Int
deriving Repr, DecidableEq

structure DownloadState where
  URL : String
  File : String
  Size : Int
  Concurrency : Int
  Chunks : List ChunkState
deriving Repr, DecidableEq

/-- The Go zero value of `ChunkState`, as produced by `var`/`new` before
`encoding/json` fills any field. -/
def zeroChunk : ChunkState := ⟨0, 0, 0, 0⟩

/-- The Go zero value of `DownloadState`. -/
def zeroDownloadState : DownloadState := ⟨"", "", 0, 0, []⟩

/-- Snapshot taken by `DownloadState.Save`: scalar fields are copied and every
chunk is copied field by field (the `Downloaded` field via an atomic load). -/
def saveSnapshot (s : DownloadState) : DownloadState :=
  { URL := s.URL, File := s.File, Size := s.Size, Concurrency := s.Concurrency,
    Chunks := s.Chunks.map (fun c => ⟨c.ID, c.Start, c.End, c.Downloaded⟩) }

/-! ## JSON decoding (LoadState / encoding/json)

`LoadState` reads the sidecar and calls `encoding/json.Unmarshal` into a
`DownloadState`.  The `Json` type and the decoder below model the stdlib
behaviour for these two struct types: an object is decoded by walking its
fields in order; a field whose (lower-cased) key matches a struct tag is
decoded into that struct field, a `null` value leaves the field unchanged,
a type-mismatched value is an error, and any other key is ignored.  Keys
absent from the object simply leave the Go zero value in place. -/

inductive Json where
  | null : Json
  | bool (b : Bool) : Json
  | num (n : Int) : Json
  | str (s : String) : Json
  | arr (elems : List Json) : Json
  | obj (fields : List (String × Json)) : Json
deriving Repr

/-- ASCII lower-casing, the fragment of Go's case-insensitive field-name
match relevant to this schema. -/
def asciiLower (s : String) : String :=
  String.mk (s.toList.map Char.toLower)

/-- Decoding a JSON value into a string-typed struct field: `null` leaves the
current value, a non-string value is an error. -/
def decodeStringField (v : Json) (cur : String) (errMsg : String) : Except String String :=
  match v with
  | Json.str x => Except.ok x
  | Json.null => Except.ok cur
  | _ => Except.error errMsg

/-- Decoding a JSON value into an integer-typed struct field. -/
def decodeIntField (v : Json) (cur : Int) (errMsg : String) : Except String Int :=
  match v with
  | Json.num n => Except.ok n
  | Json.null => Except.ok cur
  | _ => Except.error errMsg

/-- Decoding one JSON object field into a `ChunkState` (tags `id`, `start`,
`end`, `downloaded`, all of Go type `int64`/`int`). -/
def applyChunkField (c : ChunkState) (k : String) (v : Json) : Except String ChunkState :=
  if asciiLower k = "id" then
    (decodeIntField v c.ID "json: cannot unmarshal value into field id of type int").map
      (fun n => { c with ID := n })
  else if asciiLower k = "start" then
    (decodeIntField v c.Start "json: cannot unmarshal value into field start of type int64").map
      (fun n => { c with Start := n })
  else if asciiLower k = "end" then
    (decodeIntField v c.End "json: cannot unmarshal value into field end of type int64").map
      (fun n => { c with End := n })
  else if asciiLower k = "downloaded" then
    (decodeIntField v c.Downloaded "json: cannot unmarshal value into field downloaded of type int64").map
      (fun n => { c with Downloaded := n })
  else
    Except.ok c

/-- Decoding a JSON value as a `ChunkState`. -/
def decodeChunkJson (j : Json) : Except String ChunkState :=
  match j with
  | Json.obj fields =>
      fields.foldl
        (fun acc kv =>
          match acc with
          | Except.error e => Except.error e
          | Except.ok c => applyChunkField c kv.1 kv.2)
        (Except.ok zeroChunk)
  | Json.null => Except.ok zeroChunk
  | _ => Except.error "json: cannot unmarshal value into ChunkState"

/-- Decoding a JSON array as a `[]*ChunkState`. -/
def decodeChunkList : List Json → Except String (List ChunkState)
  | [] => Except.ok []
  | j :: rest =>
    match decodeChunkJson j, decodeChunkList rest with
    | Except.ok c, Except.ok cs => Except.ok (c :: cs)
    | Except.error e, _ => Except.error e
    | _, Except.error e => Except.error e

/-- Decoding a JSON value into the `Chunks` slice: an array decodes each
element, `null` leaves the current slice. -/
def decodeChunksField (v : Json) (cur : List ChunkState) : Except String (List ChunkState) :=
  match v with
  | Json.arr xs => decodeChunkList xs
  | Json.null => Except.ok cur
  | _ => Except.error "json: cannot unmarshal value into field chunks of type list"

/-- Decoding one JSON object field into a `DownloadState` (tags `url`, `file`,
`size`, `concurrency`, `chunks`). -/
def applyStateField (s : DownloadState) (k : String) (v : Json) : Except String DownloadState :=
  if asciiLower k = "url" then
    (decodeStringField v s.URL "json: cannot unmarshal value into field url of type string").map
      (fun x => { s with URL := x })
  else if asciiLower k = "file" then
    (decodeStringField v s.File "json: cannot unmarshal value into field file of type string").map
      (fun x => { s with File := x })
  else if asciiLower k = "size" then
    (decodeIntField v s.Size "json: cannot unmarshal value into field size of type int64").map
      (fun n => { s with Size := n })
  else if asciiLower k = "concurrency" then
    (decodeIntField v s.Concurrency "json: cannot unmarshal value into field concurrency of type int").map
      (fun n => { s with Concurrency := n })
  else if asciiLower k = "chunks" then
    (decodeChunksField v s.Chunks).map (fun cs => { s with Chunks := cs })
  else
    Except.ok s

/-- Decoding the ordered field list of a JSON object into a `DownloadState`,
starting from the Go zero value. -/
def decodeStateFields (fields : List (String × Json)) : Except String DownloadState :=
  fields.foldl
    (fun acc kv =>
      match acc with
      | Except.error e => Except.error e
      | Except.ok s => applyStateField s kv.1 kv.2)
    (Except.ok zeroDownloadState)

/-- Model of `json.Unmarshal(data, &state)` for a parsed JSON document:
the success/failure behaviour observed by `LoadState`. -/
def decodeDownloadState (j : Json) : Except String DownloadState :=
  match j with
  | Json.obj fields => decodeStateFields fields
  | Json.null => Except.ok zeroDownloadState
  | _ => Except.error "json: cannot unmarshal value into DownloadState"

/-- The JSON keys that name fields of the `DownloadState` schema. -/
def stateKeys : List String := ["url", "file", "size", "concurrency", "chunks"]

/-! ## Planner and resume decision (Download, part of the orchestrator) -/

/-- Concurrency adjustment `if !info.RangeSupported { cfg.Concurrency = 1 }`. -/
def effectiveConcurrency (rangeSupported : Bool) (c : Nat) : Nat :=
  if rangeSupported then c else 1

/-- The chunk the planner builds for index `i` out of `concurrency`
(`chunkSize := info.Size / int64(cfg.Concurrency)`; the last chunk's end is
overridden to `size - 1`).  Division is Go `int64` division; for the
nonnegative operands reachable here it agrees with Lean `Int` division. -/
def planChunk (size : Int) (concurrency : Nat) (i : Nat) : ChunkState :=
  let chunkSize := size / (concurrency : Int)
  { ID := i,
    Start := (i : Int) * chunkSize,
    End := if i = concurrency - 1 then size - 1 else (i : Int) * chunkSize + chunkSize - 1,
    Downloaded := 0 }

/-- The planner loop of `Download`: one chunk per index `0 ≤ i < concurrency`. -/
def planChunks (size : Int) (concurrency : Nat) : List ChunkState :=
  (List.range concurrency).map (planChunk size concurrency)

/-- The fresh `DownloadState` built by `Download` when no compatible sidecar
exists. -/
def newPlanState (resolvedUrl fileName : String) (size : Int) (concurrency : Nat) : DownloadState :=
  { URL := resolvedUrl, File := fileName, Size := size,
    Concurrency := (concurrency : Int), Chunks := planChunks size concurrency }

/-- The sidecar-resume decision of `Download`: a loaded state is kept iff its
`Size` equals the probed size and its `File` equals the computed output path,
in which case its `URL` is refreshed; otherwise a new plan is generated. -/
def resolveState (loaded : Except String DownloadState) (probedSize : Int)
    (fileName resolvedUrl : String) (concurrency : Nat) : DownloadState :=
  match loaded with
  | Except.ok s =>
      if s.Size = probedSize ∧ s.File = fileName then
        { s with URL := resolvedUrl }
      else
        newPlanState resolvedUrl fileName probedSize concurrency
  | Except.error _ => newPlanState resolvedUrl fileName probedSize concurrency

/-! ## Probe (Downloader.Probe, parseFilename)

`Probe` issues a HEAD request; the observed response is passed in as a
`HeadResponse`.  Go's `resp.ContentLength` is `-1` when the header is absent,
and `resp.Header.Get` returns `""` for an absent header.  `parseFilename`
calls `mime.ParseMediaType`; the model below implements the stdlib's grammar
for a media type followed by `;`-separated `key=value` parameters with token
or quoted-string values (RFC 2231 extended parameters are not modelled, and
no claim exercises them). -/

structure FileInfo where
  Url : String
  Name : String
  Size : Int
  RangeSupported : Bool
deriving Repr, DecidableEq

structure HeadResponse where
  status : Nat
  contentLength : Int
  acceptRanges : String
  contentDisposition : String
deriving Repr, DecidableEq

/-- ASCII whitespace, the relevant fragment of `unicode.IsSpace` here. -/
def isSpaceChar (c : Char) : Bool :=
  c = ' ' ∨ c = '\t' ∨ c = '\n' ∨ c = '\r'

/-- Go `mime` token characters: printable ASCII that is neither space nor one
of the `tspecials`. -/
def isTokenChar (c : Char) : Bool :=
  0x20 < c.toNat ∧ c.toNat < 0x7f ∧ ¬ ("()<>@,;:\\\"/[]?=".toList.contains c)

/-- Reading a quoted-string body: stops at the closing quote, `\x5cc` escapes
`c`, and a missing closing quote (or a bare CR/LF) fails.  Returns the
unescaped value and the characters after the closing quote. -/
def quotedLoop : List Char → Option (List Char × List Char)
  | [] => none
  | '"' :: rest => some ([], rest)
  | '\\' :: c :: rest =>
      (quotedLoop rest).map (fun p => (c :: p.1, p.2))
  | '\\' :: [] => none
  | '\r' :: _ => none
  | '\n' :: _ => none
  | c :: rest =>
      (quotedLoop rest).map (fun p => (c :: p.1, p.2))

/-- Consuming a parameter value: a quoted string or a bare token. -/
def consumeValue (cs : List Char) : Option (List Char × List Char) :=
  match cs with
  | '"' :: rest => quotedLoop rest
  | _ =>
    let v := cs.takeWhile isTokenChar
    if v.isEmpty then none else some (v, cs.drop v.length)

/-- The parameter loop of `mime.ParseMediaType`: repeatedly skip whitespace,
require a `;`, then `key=value`.  A trailing lone `;` is tolerated; a
duplicate key is an error.  `fuel` bounds the recursion and every step
consumes at least one character, so `length + 1` fuel never runs out. -/
def parseParams : Nat → List Char → List (String × String) →
    Except String (List (String × String))
  | 0, _, _ => Except.error "mime: internal fuel exhausted"
  | fuel + 1, cs, acc =>
    let cs1 := cs.dropWhile isSpaceChar
    match cs1 with
    | [] => Except.ok acc
    | ';' :: rest =>
      if (rest.dropWhile isSpaceChar).isEmpty then
        Except.ok acc
      else
        let rest1 := rest.dropWhile isSpaceChar
        let keyChars := rest1.takeWhile isTokenChar
        if keyChars.isEmpty then
          Except.error "mime: invalid media parameter"
        else
          let key := asciiLower (String.mk keyChars)
          match rest1.drop keyChars.length with
          | '=' :: afterEq =>
            match consumeValue afterEq with
            | none => Except.error "mime: invalid media parameter"
            | some (v, rest2) =>
              if acc.any (fun p => p.1 = key) then
                Except.error "mime: duplicate parameter name"
              else
                parseParams fuel rest2 (acc ++ [(key, String.mk v)])
          | _ => Except.error "mime: invalid media parameter"
    | _ => Except.error "mime: invalid media parameter"

/-- Splitting a character list at a separator character. -/
def splitOnChar (sep : Char) : List Char → List (List Char)
  | [] => [[]]
  | c :: rest =>
    if c = sep then [] :: splitOnChar sep rest
    else
      match splitOnChar sep rest with
      | [] => [[c]]
      | g :: gs => (c :: g) :: gs

/-- Validity of the media type itself: `token` or `token/token`. -/
def validMediaType (mt : String) : Bool :=
  match splitOnChar '/' mt.toList with
  | [t] => ¬ t.isEmpty ∧ t.all isTokenChar
  | [t, sub] => ¬ t.isEmpty ∧ t.all isTokenChar ∧ ¬ sub.isEmpty ∧ sub.all isTokenChar
  | _ => false

/-- Model of Go `mime.ParseMediaType`: the lower-cased, trimmed media type and
its parameter map (as an ordered association list with distinct keys). -/
def parseMediaType (v : String) : Except String (String × List (String × String)) :=
  let cs := v.toList
  let base := cs.takeWhile (fun c => c ≠ ';')
  let rest := cs.drop base.length
  let mt := asciiLower (String.mk ((base.dropWhile isSpaceChar).reverse.dropWhile isSpaceChar |>.reverse))
  if validMediaType mt then
    match parseParams (rest.length + 1) rest [] with
    | Except.ok ps => Except.ok (mt, ps)
    | Except.error e => Except.error e
  else
    Except.error "mime: no media type"

/-- Go map lookup on the (distinct-key) parameter list. -/
def getParam (ps : List (String × String)) (k : String) : Option String :=
  (ps.find? (fun p => p.1 = k)).map Prod.snd

/-- Model of Go `filepath.Base` on slash-separated paths: `"."` for the empty
string, `"/"` for an all-slash string, otherwise the part after the last
slash once trailing slashes are removed. -/
def filepathBase (s : String) : String :=
  if s = "" then "."
  else
    let cs := (s.toList.reverse.dropWhile (fun c => c = '/')).reverse
    if cs.isEmpty then "/"
    else String.mk (cs.reverse.takeWhile (fun c => c ≠ '/')).reverse

/-- `parseFilename(contentDisposition, url)` from the source: the `filename`
parameter of a parseable `Content-Disposition`, else `filepath.Base(url)`. -/
def parseFilename (contentDisposition url : String) : String :=
  if contentDisposition ≠ "" then
    match parseMediaType contentDisposition with
    | Except.ok mp =>
      match getParam mp.2 "filename" with
      | some filename => filename
      | none => filepathBase url
    | Except.error _ => filepathBase url
  else
    filepathBase url

/-- `Downloader.Probe` applied to the observed HEAD response. -/
def Probe (url : String) (resp : HeadResponse) : Except String FileInfo :=
  if resp.status ≠ 200 then
    Except.error ("server returned " ++ toString resp.status)
  else
    Except.ok
      { Url := url,
        Name := parseFilename resp.contentDisposition url,
        Size := resp.contentLength,
        RangeSupported := resp.acceptRanges == "bytes" }

/-! ## Segment fetcher (downloadChunk, downloadChunkWithRetry)

A ranged GET attempt is modelled by the `RangedResponse` the server sends
back: its status, the sizes of the successive successful `Read` calls on the
body, and how the body stream ends (EOF or a read error).  The server is
modelled as a function of the attempt index and the requested range start
(the `Range` header is `bytes=<currentStart>-<chunk.End>`), since those are
the only request data that vary between attempts.  File writes are recorded
as `(offset, length)` pairs, and sleeps as a list of durations in seconds. -/

inductive ReadEnd where
  | eof : ReadEnd
  | fail (msg : String) : ReadEnd
deriving Repr, DecidableEq

structure RangedResponse where
  status : Nat
  reads : List Nat
  readEnd : ReadEnd
deriving Repr, DecidableEq

/-- Result of one `downloadChunk` call: the returned written-byte count, the
final value of `chunkState.Downloaded`, the file writes performed, and the
returned error. -/
structure ChunkAttempt where
  totalWritten : Int
  downloaded : Int
  writes : List (Int × Nat)
  error : Option String
deriving Repr, DecidableEq

/-- Sum of the read sizes of a body. -/
def sumReads (reads : List Nat) : Nat := reads.foldl (fun a n => a + n) 0

/-- One iteration of the streaming loop: a read of `n > 0` bytes is written at
offset `start + totalWritten` and added to the downloaded counter; a zero
read changes nothing. -/
def streamStep (start : Int) (acc : Int × Int × List (Int × Nat)) (n : Nat) :
    Int × Int × List (Int × Nat) :=
  if 0 < n then (acc.1 + n, acc.2.1 + n, acc.2.2 ++ [(start + acc.1, n)])
  else acc

/-- The streaming loop of `downloadChunk` over the body's reads, starting from
a downloaded counter of `d0`.  Returns `(totalWritten, downloaded, writes)`. -/
def streamReads (start d0 : Int) (reads : List Nat) : Int × Int × List (Int × Nat) :=
  reads.foldl (streamStep start) (0, d0, [])

/-- `downloadChunk` applied to the observed response for the range starting at
`start`: 200 is an error before any byte is written, 206 streams the body,
416 returns success untouched, anything else is an error. -/
def downloadChunk (resp : RangedResponse) (start : Int) (d0 : Int) : ChunkAttempt :=
  if resp.status = 200 then
    { totalWritten := 0, downloaded := d0, writes := [],
      error := some "server returned 200 OK instead of 206 Partial Content (Range ignored)" }
  else if resp.status ≠ 206 then
    if resp.status = 416 then
      { totalWritten := 0, downloaded := d0, writes := [], error := none }
    else
      { totalWritten := 0, downloaded := d0, writes := [],
        error := some ("unexpected status: " ++ toString resp.status) }
  else
    let s := streamReads start d0 resp.reads
    { totalWritten := s.1, downloaded := s.2.1, writes := s.2.2,
      error := match resp.readEnd with
               | ReadEnd.eof => none
               | ReadEnd.fail m => some m }

/-- The error returned by a `downloadChunk` attempt whose status is neither
206 nor 416. -/
def chunkErrMsg (resp : RangedResponse) : String :=
  if resp.status = 200 then
    "server returned 200 OK instead of 206 Partial Content (Range ignored)"
  else
    "unexpected status: " ++ toString resp.status

/-- The error built after retry exhaustion
(`fmt.Errorf("failed after %d retries, last error: %v", maxRetries, lastErr)`
with `maxRetries = 5`). -/
def retryErrMsg (lastErr : Option String) : String :=
  "failed after 5 retries, last error: " ++ lastErr.getD ""

/-- Result of `downloadChunkWithRetry`: the final downloaded counter, the
returned error, the backoff sleeps performed (in seconds, in order), and the
number of `downloadChunk` attempts issued. -/
structure RetryResult where
  downloaded : Int
  error : Option String
  sleeps : List Nat
  attemptsMade : Nat
deriving Repr, DecidableEq

/-- The retry loop body of `downloadChunkWithRetry`: `remaining` iterations of
the `for i := 0; i < maxRetries; i++` loop are left and `i` attempts have
already been made.  Each iteration recomputes `currentStart`, returns success
if the chunk is already complete, attempts the download, returns success on
completion or a nil error, and otherwise records the error, sleeps `i + 1`
seconds and continues.  After the loop the last error is wrapped. -/
def retryGo (responses : Nat → Int → RangedResponse) (chunkStart chunkEnd : Int) :
    Nat → Nat → Int → List Nat → Option String → RetryResult
  | 0, i, d, sleeps, lastErr =>
    { downloaded := d, error := some (retryErrMsg lastErr), sleeps := sleeps, attemptsMade := i }
  | remaining + 1, i, d, sleeps, _lastErr =>
    if chunkEnd < chunkStart + d then
      { downloaded := d, error := none, sleeps := sleeps, attemptsMade := i }
    else
      let att := downloadChunk (responses i (chunkStart + d)) (chunkStart + d) d
      if chunkEnd < chunkStart + att.downloaded then
        { downloaded := att.downloaded, error := none, sleeps := sleeps, attemptsMade := i + 1 }
      else if att.error = none then
        { downloaded := att.downloaded, error := none, sleeps := sleeps, attemptsMade := i + 1 }
      else
        retryGo responses chunkStart chunkEnd remaining (i + 1) att.downloaded
          (sleeps ++ [i + 1]) att.error

/-- `downloadChunkWithRetry` for a chunk `[chunkStart, chunkEnd]` whose
counter currently holds `d0`: five loop iterations, no attempts made yet. -/
def downloadChunkWithRetry (responses : Nat → Int → RangedResponse)
    (chunkStart chunkEnd d0 : Int) : RetryResult :=
  retryGo responses chunkStart chunkEnd 5 0 d0 [] none

/-- The successive values taken by the downloaded counter during one streaming
attempt (one entry before any read, then one after each read). -/
def downloadedTrace (d0 : Int) (reads : List Nat) : List Int :=
  List.scanl (fun (d : Int) (n : Nat) => if 0 < n then d + (n : Int) else d) d0 reads

/-- The chunk-completeness test of the source
(`chunkState.Start + chunkState.Downloaded > chunkState.End`). -/
def chunkDone (chunkStart chunkEnd d : Int) : Bool :=
  chunkEnd < chunkStart + d

/-- A server that honors ranges: any 206 body for a request starting at `s`
carries at most `chunkEnd - s + 1` bytes. -/
def serverHonorsRange (responses : Nat → Int → RangedResponse) (chunkEnd : Int) : Prop :=
  ∀ i s, s ≤ chunkEnd → (responses i s).status = 206 →
    (sumReads (responses i s).reads : Int) ≤ chunkEnd - s + 1

/-! ## Orchestrator tail (end of Download)

After the plan is fixed, `Download` spawns one fetcher per incomplete chunk
(each fetcher's error is only printed), waits for all of them, and then
executes `os.Remove(stateFile); return nil` unconditionally.  The outcome
records the printed errors, whether the sidecar file was removed, and the
value `Download` returns. -/

structure DownloadOutcome where
  printedErrors : List String
  sidecarRemoved : Bool
  returned : Option String
deriving Repr, DecidableEq

/-- The fetcher fan-out loop: chunk `i` is skipped when already complete
(`chunk.Downloaded >= chunk.End - chunk.Start + 1`), otherwise its retrying
fetcher runs.  Returns each chunk's final state and its fetcher's error. -/
def runFetchers (responses : Nat → Nat → Int → RangedResponse)
    (chunks : List ChunkState) : List (ChunkState × Option String) :=
  chunks.enum.map (fun ic =>
    let c := ic.2
    if c.End - c.Start + 1 ≤ c.Downloaded then (c, none)
    else
      let r := downloadChunkWithRetry (responses ic.1) c.Start c.End c.Downloaded
      ({ c with Downloaded := r.downloaded }, r.error))

/-- The end of `Download` from the fetcher fan-out on: fetcher errors are
printed, then the sidecar is removed and `nil` is returned. -/
def downloadFinish (responses : Nat → Nat → Int → RangedResponse)
    (chunks : List ChunkState) : DownloadOutcome × List ChunkState :=
  let results := runFetchers responses chunks
  ({ printedErrors := results.enum.filterMap (fun ie =>
        ie.2.2.map (fun m => "Error downloading chunk " ++ toString ie.1 ++ ": " ++ m)),
     sidecarRemoved := true,
     returned := none },
   results.map Prod.fst)

/-- A server that answers every request with a bodyless 500. -/
def resp500 : Nat → Int → RangedResponse := fun _ _ => ⟨500, [], ReadEnd.eof⟩

/-- A per-chunk family of servers that answer every request with a bodyless
500. -/
def resp500n : Nat → Nat → Int → RangedResponse := fun _ => resp500

/-- A server that answers every request with 416 Requested Range Not
Satisfiable. -/
def resp416 : Nat → Int → RangedResponse := fun _ _ => ⟨416, [], ReadEnd.eof⟩

/-! ## Google Drive resolver (GoogleDriveResolver.Resolve, HTML branch)

The resolver probes `https://drive.google.com/uc?export=download&id=<id>` and,
when the response is HTML carrying a confirmation form, rebuilds the final
URL from the form's `action`, `confirm` and optional `uuid` values.  The
regular expressions `action="([^"]+)"`, `name="confirm" value="([^"]+)"` and
`name="uuid" value="([^"]+)"` are modelled by `findCapture`, which scans for
the leftmost position where the literal prefix is followed by a nonempty run
of non-quote characters and a closing quote — exactly the strings those
patterns match.  `url.Values.Encode` percent-encodes every key and value and
emits `key=value` pairs joined by `&` in sorted key order. -/

/-- Substring scan over character lists. -/
def containsSubstrList (sub : List Char) : List Char → Bool
  | [] => sub.isPrefixOf []
  | c :: rest => sub.isPrefixOf (c :: rest) ∨ containsSubstrList sub rest

/-- Go `strings.Contains`. -/
def containsSubstr (s sub : String) : Bool :=
  containsSubstrList sub.toList s.toList

/-- Attempt to match `<pat>([^"]+)"` at the very start of `body`. -/
def tryCaptureHere (pat body : List Char) : Option (List Char) :=
  if pat.isPrefixOf body then
    let after := body.drop pat.length
    let cap := after.takeWhile (fun c => c ≠ '"')
    if cap.isEmpty then none
    else
      match (after.drop cap.length).head? with
      | some '"' => some cap
      | _ => none
  else none

/-- Leftmost match of the pattern `<pat>([^"]+)"` anywhere in `body`,
returning the capture group. -/
def findCapture (pat : List Char) : List Char → Option (List Char)
  | [] => none
  | c :: rest =>
    match tryCaptureHere pat (c :: rest) with
    | some cap => some cap
    | none => findCapture pat rest

/-- The UTF-8 encoding of one character, as a list of byte values. -/
def utf8Bytes (c : Char) : List Nat :=
  let n := c.toNat
  if n < 0x80 then [n]
  else if n < 0x800 then [0xC0 + n / 64, 0x80 + n % 64]
  else if n < 0x10000 then [0xE0 + n / 4096, 0x80 + (n / 64) % 64, 0x80 + n % 64]
  else [0xF0 + n / 262144, 0x80 + (n / 4096) % 64, 0x80 + (n / 64) % 64, 0x80 + n % 64]

/-- One byte of Go `url.QueryEscape`: unreserved bytes stay, space becomes
`+`, everything else becomes `%XX` with upper-case hex. -/
def escapeByte (n : Nat) : String :=
  if (65 ≤ n ∧ n ≤ 90) ∨ (97 ≤ n ∧ n ≤ 122) ∨ (48 ≤ n ∧ n ≤ 57) ∨
      n = 45 ∨ n = 95 ∨ n = 46 ∨ n = 126 then
    String.mk [Char.ofNat n]
  else if n = 32 then "+"
  else
    String.mk ['%', "0123456789ABCDEF".toList.getD (n / 16) '0',
               "0123456789ABCDEF".toList.getD (n % 16) '0']

/-- Go `url.QueryEscape`, applied bytewise to the UTF-8 encoding. -/
def queryEscape (s : String) : String :=
  String.join ((s.toList.flatMap utf8Bytes).map escapeByte)

/-- Byte-wise (code-point-wise) lexicographic order on strings, as used by
Go's `sort.Strings` over the query keys. -/
def charListLe : List Char → List Char → Bool
  | [], _ => true
  | _ :: _, [] => false
  | a :: as, b :: bs =>
    if a.toNat < b.toNat then true
    else if b.toNat < a.toNat then false
    else charListLe as bs

/-- String comparison for the key sort. -/
def stringLe (a b : String) : Bool := charListLe a.toList b.toList

/-- Insertion into a key-sorted association list. -/
def insertSorted (p : String × String) : List (String × String) → List (String × String)
  | [] => [p]
  | q :: qs => if stringLe p.1 q.1 then p :: q :: qs else q :: insertSorted p qs

/-- Sorting an association list by key, as `url.Values.Encode` iterates the
sorted key set. -/
def sortByKey (l : List (String × String)) : List (String × String) :=
  l.foldr insertSorted []

/-- Go `strings.Join(·, "&")`. -/
def joinAmp : List String → String
  | [] => ""
  | [x] => x
  | x :: y :: rest => x ++ "&" ++ joinAmp (y :: rest)

/-- Go `url.Values.Encode` for single-valued keys. -/
def valuesEncode (vals : List (String × String)) : String :=
  joinAmp ((sortByKey vals).map (fun p => queryEscape p.1 ++ "=" ++ queryEscape p.2))

/-- Promotion of a root-relative form action
(`strings.HasPrefix(baseAction, "/")`) to the Drive content host. -/
def gdriveActionBase (action : String) : String :=
  if "/".toList.isPrefixOf action.toList then
    "https://drive.usercontent.google.com" ++ action
  else action

/-- URL reconstruction from the extracted form data: promote a root-relative
action to `https://drive.usercontent.google.com`, set `id`, `export`,
`confirm` and optionally `uuid`, and append the encoded query with `&` when
the action already has a query string, else with `?`. -/
def gdriveBuildFinalUrl (fileID action confirm : String) (uuid : Option String) : String :=
  let baseAction := gdriveActionBase action
  let vals :=
    [("id", fileID), ("export", "download"), ("confirm", confirm)] ++
      (match uuid with
       | some u => [("uuid", u)]
       | none => [])
  if baseAction.toList.contains '?' then baseAction ++ "&" ++ valuesEncode vals
  else baseAction ++ "?" ++ valuesEncode vals

/-- The response-processing tail of `GoogleDriveResolver.Resolve`: given the
extracted file id, the probe response's `Content-Type` and body, and the URL
the redirect chain landed on, produce the URL the resolver returns. -/
def gdriveResolveFromResponse (fileID contentType bodyStr finalRedirectUrl : String) : String :=
  if containsSubstr contentType "text/html" then
    if containsSubstr bodyStr "uc-download-link" ∨ containsSubstr bodyStr "confirm=" then
      match findCapture "action=\"".toList bodyStr.toList,
            findCapture "name=\"confirm\" value=\"".toList bodyStr.toList with
      | some action, some confirm =>
          gdriveBuildFinalUrl fileID (String.mk action) (String.mk confirm)
            ((findCapture "name=\"uuid\" value=\"".toList bodyStr.toList).map String.mk)
      | _, _ => finalRedirectUrl
    else finalRedirectUrl
  else finalRedirectUrl

/-- The warning-page HTML of spec scenario S6: a confirmation form with
`action="/download"` and confirm token `t_abc`, no uuid input. -/
def gdriveHtmlExample : String :=
  "<form class=\"uc-download-link\" action=\"/download\"><input type=\"hidden\" name=\"confirm\" value=\"t_abc\"></form>"

/-! ## Theorems -/

/-- C1: the claim says a fetcher failure leaves the sidecar intact and
surfaces the error, but the source unconditionally executes
`os.Remove(stateFile); return nil`.  Evaluating the orchestrator tail at a
failing input — one chunk `[0, 9]` with nothing downloaded against a server
that always answers 500 — shows the fetcher exhausts its retries and reports
an error, the chunk stays incomplete, and yet the sidecar is removed and
`Download` returns `nil`. -/
theorem claim_C1 :
    (downloadFinish resp500n [⟨0, 0, 9, 0⟩]).1.sidecarRemoved = true ∧
    (downloadFinish resp500n [⟨0, 0, 9, 0⟩]).1.returned = none ∧
    (downloadFinish resp500n [⟨0, 0, 9, 0⟩]).1.printedErrors =
      ["Error downloading chunk 0: failed after 5 retries, last error: unexpected status: 500"] ∧
    (downloadFinish resp500n [⟨0, 0, 9, 0⟩]).2.map ChunkState.Downloaded = [0] :=
  ⟨rfl, rfl, rfl, rfl⟩

/-- C2: for any `size ≥ 1` and requested concurrency `C ≥ 1`, the planner
produces exactly `C` segments, each starting with `downloaded = 0`, whose
ranges tile `[0, size)` contiguously: the first segment starts at `0`, each
segment's start is the previous segment's end plus one, and the last
segment's end is `size - 1`; and a range-unsupported probe forces the
effective concurrency to 1. -/
theorem claim_C2 (size : Int) (C : Nat) (_hsize : 1 ≤ size) (hC : 1 ≤ C) :
    (planChunks size C).length = C ∧
    (∀ c ∈ planChunks size C, c.Downloaded = 0) ∧
    (planChunks size C).head?.map ChunkState.Start = some 0 ∧
    List.Chain' (fun a b => b.Start = a.End + 1) (planChunks size C) ∧
    (planChunks size C).getLast?.map ChunkState.End = some (size - 1) ∧
    effectiveConcurrency false C = 1 := by
  obtain ⟨k, rfl⟩ : ∃ k, C = k + 1 := ⟨C - 1, (Nat.succ_pred_eq_of_pos hC).symm⟩
  refine ⟨by simp [planChunks], ?_, ?_, ?_, ?_, rfl⟩
  · intro c hc
    rw [planChunks, List.mem_map] at hc
    obtain ⟨i, _, rfl⟩ := hc
    rfl
  · rw [planChunks, List.range_succ_eq_map k, List.map_cons, List.head?_cons,
      Option.map_some']
    simp [planChunk]
  · rw [planChunks, List.chain'_map, List.chain'_range_succ]
    intro m hm
    show (planChunk size (k + 1) (m + 1)).Start = (planChunk size (k + 1) m).End + 1
    simp only [planChunk]
    rw [if_neg (by omega : ¬ m = k + 1 - 1)]
    push_cast
    ring
  · rw [planChunks, List.range_succ k, List.map_append, List.map_cons, List.map_nil,
      List.getLast?_concat, Option.map_some']
    simp only [planChunk]
    rw [if_pos (by omega : k = k + 1 - 1)]

/-- C2 witness: the planner at `size = 10`, `C = 3`. -/
theorem claim_C2_witness :
    (planChunks 10 3).length = 3 ∧
    (planChunks 10 3).getLast?.map ChunkState.End = some 9 :=
  ⟨(claim_C2 10 3 (by decide) (by decide)).1,
   (claim_C2 10 3 (by decide) (by decide)).2.2.2.2.1⟩

/-- C3 counterexample: the claim says a sidecar JSON lacking the schema's
fields is a fatal parse error, but decoding the empty object `\x7b\x7d` — every
field missing — succeeds and yields the Go zero value. -/
theorem claim_C3_counterexample :
    decodeDownloadState (Json.obj []) = Except.ok zeroDownloadState ∧
    decodeChunkJson (Json.obj []) = Except.ok zeroChunk :=
  ⟨rfl, rfl⟩

/-- C3 amended: JSON fields unknown to the schema are ignored on load, and
missing fields are NOT parse errors — they leave the Go zero value in place;
only malformed JSON (a non-object document, or a type-mismatched field) makes
`LoadState` fail. -/
theorem claim_C3_amended :
    decodeDownloadState (Json.obj []) = Except.ok zeroDownloadState ∧
    decodeChunkJson (Json.obj []) = Except.ok zeroChunk ∧
    decodeDownloadState (Json.str "not an object") =
      Except.error "json: cannot unmarshal value into DownloadState" ∧
    decodeDownloadState (Json.obj [("size", Json.str "big")]) =
      Except.error "json: cannot unmarshal value into field size of type int64" ∧
    (∀ fields k v, asciiLower k ∉ stateKeys →
      decodeStateFields (fields ++ [(k, v)]) = decodeStateFields fields) := by
  refine ⟨rfl, rfl, rfl, rfl, ?_⟩
  intro fields k v hk
  rw [decodeStateFields, decodeStateFields,
    List.foldl_append _ _ fields [(k, v)], List.foldl_cons, List.foldl_nil]
  cases hacc : List.foldl _ (Except.ok zeroDownloadState) fields with
  | error e => rfl
  | ok s =>
    show applyStateField s k v = Except.ok s
    simp only [stateKeys, List.mem_cons, List.not_mem_nil] at hk
    push_neg at hk
    simp only [applyStateField, if_neg hk.1, if_neg hk.2.1, if_neg hk.2.2.1,
      if_neg hk.2.2.2.1, if_neg hk.2.2.2.2.1]

/-- C3 amended witness: an unknown field `extra` next to a known field decodes
exactly as without it. -/
theorem claim_C3_amended_witness :
    decodeStateFields [("url", Json.str "u"), ("extra", Json.null)] =
      decodeStateFields [("url", Json.str "u")] :=
  claim_C3_amended.2.2.2.2 [("url", Json.str "u")] "extra" Json.null (by decide)

/-- C8: a loaded sidecar state is used for resume iff its stored size equals
the probed size and its stored file equals the computed output path; when
used, only its URL is replaced (chunks and their progress survive); when not
usable — mismatch or load failure — the planner's fresh state is used. -/
theorem claim_C8 (loaded : Except String DownloadState) (probedSize : Int)
    (fileName url : String) (c : Nat) :
    (∀ s, loaded = Except.ok s → s.Size = probedSize → s.File = fileName →
      resolveState loaded probedSize fileName url c = { s with URL := url } ∧
      (resolveState loaded probedSize fileName url c).Chunks = s.Chunks ∧
      (resolveState loaded probedSize fileName url c).URL = url) ∧
    (∀ s, loaded = Except.ok s → ¬ (s.Size = probedSize ∧ s.File = fileName) →
      resolveState loaded probedSize fileName url c =
        newPlanState url fileName probedSize c) ∧
    (∀ e, loaded = Except.error e →
      resolveState loaded probedSize fileName url c =
        newPlanState url fileName probedSize c) := by
  refine ⟨?_, ?_, ?_⟩
  · rintro s rfl hsz hf
    rw [resolveState, if_pos ⟨hsz, hf⟩]
    exact ⟨rfl, rfl, rfl⟩
  · rintro s rfl hne
    rw [resolveState, if_neg hne]
  · rintro e rfl
    rfl

/-- C8 witness: a compatible loaded state keeps its chunks and gets the fresh
URL; an incompatible one is replaced by a fresh plan. -/
theorem claim_C8_witness :
    (resolveState (Except.ok ⟨"old", "f.bin", 10, 2, [⟨0, 0, 4, 5⟩, ⟨1, 5, 9, 0⟩]⟩)
        10 "f.bin" "new" 2).Chunks = [⟨0, 0, 4, 5⟩, ⟨1, 5, 9, 0⟩] ∧
    resolveState (Except.ok ⟨"old", "f.bin", 11, 2, [⟨0, 0, 4, 5⟩, ⟨1, 5, 10, 0⟩]⟩)
        10 "f.bin" "new" 2 = newPlanState "new" "f.bin" 10 2 :=
  ⟨((claim_C8 _ 10 "f.bin" "new" 2).1 _ rfl rfl rfl).2.1,
   (claim_C8 _ 10 "f.bin" "new" 2).2.1 _ rfl (by decide)⟩

/-- C7: `Probe` fails exactly when the HEAD status is not 200; on success the
size is the `Content-Length` value (−1 when absent, as Go's
`resp.ContentLength` reports it), range support holds exactly when
`Accept-Ranges` equals `"bytes"`, and the name is the `filename` parameter of
a parseable `Content-Disposition`, else the last path segment of the URL. -/
theorem claim_C7 :
    (∀ url resp, resp.status ≠ 200 →
      Probe url resp = Except.error ("server returned " ++ toString resp.status)) ∧
    (∀ url resp, resp.status = 200 →
      Probe url resp = Except.ok
        { Url := url, Name := parseFilename resp.contentDisposition url,
          Size := resp.contentLength, RangeSupported := resp.acceptRanges == "bytes" }) ∧
    (∀ cd u mt ps f, parseMediaType cd = Except.ok (mt, ps) →
      getParam ps "filename" = some f → parseFilename cd u = f) ∧
    (∀ cd u mt ps, parseMediaType cd = Except.ok (mt, ps) →
      getParam ps "filename" = none → parseFilename cd u = filepathBase u) ∧
    (∀ cd u e, parseMediaType cd = Except.error e → parseFilename cd u = filepathBase u) ∧
    parseFilename "attachment; filename=\"x.bin\"" "https://example.com/files/y.bin" = "x.bin" ∧
    parseFilename "" "https://example.com/files/y.bin" = "y.bin" := by
  refine ⟨?_, ?_, ?_, ?_, ?_, rfl, rfl⟩
  · intro url resp h
    rw [Probe, if_pos h]
  · intro url resp h
    rw [Probe, if_neg (by simp [h])]
  · intro cd u mt ps f hparse hf
    have hcd : cd ≠ "" := by
      rintro rfl
      rw [show parseMediaType "" = Except.error "mime: no media type" from rfl] at hparse
      exact Except.noConfusion hparse
    simp [parseFilename, hcd, hparse, hf]
  · intro cd u mt ps hparse hf
    by_cases hcd : cd = ""
    · simp [parseFilename, hcd]
    · simp [parseFilename, hcd, hparse, hf]
  · intro cd u e hparse
    by_cases hcd : cd = ""
    · simp [parseFilename, hcd]
    · simp [parseFilename, hcd, hparse]

/-- C7 witness: a 404 probe fails; a 200 probe with `Content-Length` 1048576,
`Accept-Ranges: bytes` and a quoted filename yields that metadata. -/
theorem claim_C7_witness :
    Probe "https://example.com/files/y.bin" ⟨404, -1, "", ""⟩ =
      Except.error "server returned 404" ∧
    Probe "https://example.com/files/y.bin"
        ⟨200, 1048576, "bytes", "attachment; filename=\"x.bin\""⟩ =
      Except.ok ⟨"https://example.com/files/y.bin", "x.bin", 1048576, true⟩ :=
  ⟨(claim_C7.1 "https://example.com/files/y.bin" ⟨404, -1, "", ""⟩ (by decide)).trans rfl,
   (claim_C7.2.1 "https://example.com/files/y.bin"
      ⟨200, 1048576, "bytes", "attachment; filename=\"x.bin\""⟩ rfl).trans rfl⟩

/-- C4 counterexample: on the spec's own S6 scenario — HTML with
`action="/download"` and confirm token `t_abc` — the resolver returns the
query parameters in sorted key order (`confirm`, `export`, `id`), because
`url.Values.Encode` sorts keys; the claimed string with `id` first is not the
returned URL. -/
theorem claim_C4_counterexample :
    gdriveResolveFromResponse "FILEID" "text/html" gdriveHtmlExample "https://landed" =
      "https://drive.usercontent.google.com/download?confirm=t_abc&export=download&id=FILEID" ∧
    "https://drive.usercontent.google.com/download?confirm=t_abc&export=download&id=FILEID" ≠
      "https://drive.usercontent.google.com/download?id=FILEID&export=download&confirm=t_abc" :=
  ⟨rfl, by decide⟩

/-- C4 amended: when the probe response is HTML passing the form gate and
both an `action` and a `confirm` capture are found, the resolver returns
`<action>` with the query `confirm=<token>&export=download&id=<id>[&uuid=<uuid>]`
appended — the parameters in sorted key order, as `url.Values.Encode`
produces them — with a root-relative action promoted to
`https://drive.usercontent.google.com` and the query joined with `&` instead
of `?` when the action already carries a query string. -/
theorem claim_C4_amended :
    (∀ fileID contentType body landed actionCs confirmCs,
      containsSubstr contentType "text/html" = true →
      (containsSubstr body "uc-download-link" = true ∨ containsSubstr body "confirm=" = true) →
      findCapture "action=\"".toList body.toList = some actionCs →
      findCapture "name=\"confirm\" value=\"".toList body.toList = some confirmCs →
      findCapture "name=\"uuid\" value=\"".toList body.toList = none →
      (gdriveActionBase (String.mk actionCs)).toList.contains '?' = false →
      gdriveResolveFromResponse fileID contentType body landed =
        gdriveActionBase (String.mk actionCs) ++ "?confirm=" ++
          queryEscape (String.mk confirmCs) ++ "&export=download&id=" ++ queryEscape fileID) ∧
    (∀ fileID contentType body landed actionCs confirmCs uuidCs,
      containsSubstr contentType "text/html" = true →
      (containsSubstr body "uc-download-link" = true ∨ containsSubstr body "confirm=" = true) →
      findCapture "action=\"".toList body.toList = some actionCs →
      findCapture "name=\"confirm\" value=\"".toList body.toList = some confirmCs →
      findCapture "name=\"uuid\" value=\"".toList body.toList = some uuidCs →
      (gdriveActionBase (String.mk actionCs)).toList.contains '?' = false →
      gdriveResolveFromResponse fileID contentType body landed =
        gdriveActionBase (String.mk actionCs) ++ "?confirm=" ++
          queryEscape (String.mk confirmCs) ++ "&export=download&id=" ++ queryEscape fileID ++
          "&uuid=" ++ queryEscape (String.mk uuidCs)) ∧
    (∀ fileID contentType body landed actionCs confirmCs,
      containsSubstr contentType "text/html" = true →
      (containsSubstr body "uc-download-link" = true ∨ containsSubstr body "confirm=" = true) →
      findCapture "action=\"".toList body.toList = some actionCs →
      findCapture "name=\"confirm\" value=\"".toList body.toList = some confirmCs →
      findCapture "name=\"uuid\" value=\"".toList body.toList = none →
      (gdriveActionBase (String.mk actionCs)).toList.contains '?' = true →
      gdriveResolveFromResponse fileID contentType body landed =
        gdriveActionBase (String.mk actionCs) ++ "&confirm=" ++
          queryEscape (String.mk confirmCs) ++ "&export=download&id=" ++ queryEscape fileID) := by
  refine ⟨?_, ?_, ?_⟩
  · intro fileID contentType body landed actionCs confirmCs h1 h2 h3 h4 h5 h6
    rw [gdriveResolveFromResponse, if_pos h1, if_pos h2, h3, h4, h5]
    show gdriveBuildFinalUrl _ _ _ none = _
    rw [gdriveBuildFinalUrl]
    show (if (gdriveActionBase (String.mk actionCs)).toList.contains '?' = true then _ else _) = _
    rw [if_neg (by simpa using h6)]
    show gdriveActionBase (String.mk actionCs) ++ "?" ++
        ((("confirm=" ++ queryEscape (String.mk confirmCs)) ++ "&") ++
          ("export=download&" ++ ("id=" ++ queryEscape fileID))) = _
    simp only [String.append_assoc]
    rfl
  · intro fileID contentType body landed actionCs confirmCs uuidCs h1 h2 h3 h4 h5 h6
    rw [gdriveResolveFromResponse, if_pos h1, if_pos h2, h3, h4, h5]
    show gdriveBuildFinalUrl _ _ _ (some (String.mk uuidCs)) = _
    rw [gdriveBuildFinalUrl]
    show (if (gdriveActionBase (String.mk actionCs)).toList.contains '?' = true then _ else _) = _
    rw [if_neg (by simpa using h6)]
    show gdriveActionBase (String.mk actionCs) ++ "?" ++
        ((("confirm=" ++ queryEscape (String.mk confirmCs)) ++ "&") ++
          ("export=download&" ++
            ((("id=" ++ queryEscape fileID) ++ "&") ++
              ("uuid=" ++ queryEscape (String.mk uuidCs))))) = _
    simp only [String.append_assoc]
    rfl
  · intro fileID contentType body landed actionCs confirmCs h1 h2 h3 h4 h5 h6
    rw [gdriveResolveFromResponse, if_pos h1, if_pos h2, h3, h4, h5]
    show gdriveBuildFinalUrl _ _ _ none = _
    rw [gdriveBuildFinalUrl]
    show (if (gdriveActionBase (String.mk actionCs)).toList.contains '?' = true then _ else _) = _
    rw [if_pos h6]
    show gdriveActionBase (String.mk actionCs) ++ "&" ++
        ((("confirm=" ++ queryEscape (String.mk confirmCs)) ++ "&") ++
          ("export=download&" ++ ("id=" ++ queryEscape fileID))) = _
    simp only [String.append_assoc]
    rfl

/-- C4 amended witness: the S6 scenario evaluated through the amended
theorem. -/
theorem claim_C4_amended_witness :
    gdriveResolveFromResponse "FILEID" "text/html" gdriveHtmlExample "https://landed" =
      gdriveActionBase "/download" ++ "?confirm=" ++ queryEscape "t_abc" ++
        "&export=download&id=" ++ queryEscape "FILEID" :=
  (claim_C4_amended.1 "FILEID" "text/html" gdriveHtmlExample "https://landed"
    "/download".toList "t_abc".toList rfl (Or.inl rfl) rfl rfl rfl rfl).trans rfl

/-! ### Helper lemmas about the streaming and retry loops -/

theorem foldl_add_shift : ∀ (l : List Nat) (a : Nat),
    l.foldl (fun x n => x + n) a = a + l.foldl (fun x n => x + n) 0 := by
  intro l
  induction l with
  | nil => intro a; simp
  | cons n rest ih =>
    intro a
    simp only [List.foldl_cons]
    rw [ih (a + n), ih (0 + n)]
    omega

theorem sumReads_cons (n : Nat) (rest : List Nat) :
    sumReads (n :: rest) = n + sumReads rest := by
  simp only [sumReads, List.foldl_cons]
  rw [foldl_add_shift]
  omega

theorem streamFold (start : Int) : ∀ (reads : List Nat) (tw d : Int) (ws : List (Int × Nat)),
    (reads.foldl (streamStep start) (tw, d, ws)).1 = tw + (sumReads reads : Int) ∧
    (reads.foldl (streamStep start) (tw, d, ws)).2.1 = d + (sumReads reads : Int) := by
  intro reads
  induction reads with
  | nil => intro tw d ws; simp [sumReads]
  | cons n rest ih =>
    intro tw d ws
    simp only [List.foldl_cons]
    by_cases hn : 0 < n
    · rw [show streamStep start (tw, d, ws) n = (tw + n, d + n, ws ++ [(start + tw, n)]) from by
        simp [streamStep, hn]]
      obtain ⟨h1, h2⟩ := ih (tw + n) (d + n) (ws ++ [(start + tw, n)])
      refine ⟨?_, ?_⟩
      · rw [h1, sumReads_cons]; push_cast; ring
      · rw [h2, sumReads_cons]; push_cast; ring
    · have hn0 : n = 0 := by omega
      rw [show streamStep start (tw, d, ws) n = (tw, d, ws) from by simp [streamStep, hn]]
      obtain ⟨h1, h2⟩ := ih tw d ws
      subst hn0
      refine ⟨?_, ?_⟩
      · rw [h1, sumReads_cons]; push_cast; ring
      · rw [h2, sumReads_cons]; push_cast; ring

theorem downloadChunk_200 (resp : RangedResponse) (s d : Int) (h : resp.status = 200) :
    downloadChunk resp s d =
      ⟨0, d, [], some "server returned 200 OK instead of 206 Partial Content (Range ignored)"⟩ := by
  rw [downloadChunk, if_pos h]

theorem downloadChunk_416 (resp : RangedResponse) (s d : Int) (h : resp.status = 416) :
    downloadChunk resp s d = ⟨0, d, [], none⟩ := by
  rw [downloadChunk, if_neg (by simp [h]), if_pos (by simp [h]), if_pos h]

theorem downloadChunk_other (resp : RangedResponse) (s d : Int) (h200 : resp.status ≠ 200)
    (h206 : resp.status ≠ 206) (h416 : resp.status ≠ 416) :
    downloadChunk resp s d = ⟨0, d, [], some ("unexpected status: " ++ toString resp.status)⟩ := by
  rw [downloadChunk, if_neg h200, if_pos h206, if_neg h416]

theorem downloadChunk_fail (resp : RangedResponse) (s d : Int)
    (h206 : resp.status ≠ 206) (h416 : resp.status ≠ 416) :
    downloadChunk resp s d = ⟨0, d, [], some (chunkErrMsg resp)⟩ := by
  by_cases h200 : resp.status = 200
  · rw [downloadChunk_200 resp s d h200, chunkErrMsg, if_pos h200]
  · rw [downloadChunk_other resp s d h200 h206 h416, chunkErrMsg, if_neg h200]

theorem downloadChunk_206 (resp : RangedResponse) (s d : Int) (h : resp.status = 206) :
    downloadChunk resp s d =
      ⟨(streamReads s d resp.reads).1, (streamReads s d resp.reads).2.1,
        (streamReads s d resp.reads).2.2,
        match resp.readEnd with
        | ReadEnd.eof => none
        | ReadEnd.fail m => some m⟩ := by
  rw [downloadChunk, if_neg (by simp [h]), if_neg (by simp [h])]

theorem downloadChunk_not206_downloaded (resp : RangedResponse) (s d : Int)
    (h206 : resp.status ≠ 206) : (downloadChunk resp s d).downloaded = d := by
  by_cases h200 : resp.status = 200
  · rw [downloadChunk_200 resp s d h200]
  · by_cases h416 : resp.status = 416
    · rw [downloadChunk_416 resp s d h416]
    · rw [downloadChunk_other resp s d h200 h206 h416]

theorem downloadChunk_not206_writes (resp : RangedResponse) (s d : Int)
    (h206 : resp.status ≠ 206) : (downloadChunk resp s d).writes = [] := by
  by_cases h200 : resp.status = 200
  · rw [downloadChunk_200 resp s d h200]
  · by_cases h416 : resp.status = 416
    · rw [downloadChunk_416 resp s d h416]
    · rw [downloadChunk_other resp s d h200 h206 h416]

theorem downloadChunk_206_downloaded (resp : RangedResponse) (s d : Int)
    (h : resp.status = 206) :
    (downloadChunk resp s d).downloaded = d + (sumReads resp.reads : Int) := by
  rw [downloadChunk_206 resp s d h]
  show (streamReads s d resp.reads).2.1 = _
  rw [streamReads]
  exact (streamFold s resp.reads 0 d []).2

theorem downloadChunk_d_ge (resp : RangedResponse) (s d : Int) :
    d ≤ (downloadChunk resp s d).downloaded := by
  by_cases h206 : resp.status = 206
  · rw [downloadChunk_206_downloaded resp s d h206]
    have : (0 : Int) ≤ (sumReads resp.reads : Int) := Int.ofNat_nonneg _
    omega
  · rw [downloadChunk_not206_downloaded resp s d h206]

theorem retryGo_zero (responses : Nat → Int → RangedResponse) (cs ce : Int) (i : Nat)
    (d : Int) (sl : List Nat) (le : Option String) :
    retryGo responses cs ce 0 i d sl le = ⟨d, some (retryErrMsg le), sl, i⟩ := rfl

theorem retryGo_succ (responses : Nat → Int → RangedResponse) (cs ce : Int) (r i : Nat)
    (d : Int) (sl : List Nat) (le : Option String) :
    retryGo responses cs ce (r + 1) i d sl le =
      if ce < cs + d then ⟨d, none, sl, i⟩
      else if ce < cs + (downloadChunk (responses i (cs + d)) (cs + d) d).downloaded then
        ⟨(downloadChunk (responses i (cs + d)) (cs + d) d).downloaded, none, sl, i + 1⟩
      else if (downloadChunk (responses i (cs + d)) (cs + d) d).error = none then
        ⟨(downloadChunk (responses i (cs + d)) (cs + d) d).downloaded, none, sl, i + 1⟩
      else
        retryGo responses cs ce r (i + 1)
          (downloadChunk (responses i (cs + d)) (cs + d) d).downloaded
          (sl ++ [i + 1]) (downloadChunk (responses i (cs + d)) (cs + d) d).error := rfl

theorem retryGo_d_ge (responses : Nat → Int → RangedResponse) (cs ce : Int) :
    ∀ (r i : Nat) (d : Int) (sl : List Nat) (le : Option String),
      d ≤ (retryGo responses cs ce r i d sl le).downloaded := by
  intro r
  induction r with
  | zero => intro i d sl le; rw [retryGo_zero]
  | succ r ih =>
    intro i d sl le
    rw [retryGo_succ]
    by_cases h1 : ce < cs + d
    · rw [if_pos h1]
    · rw [if_neg h1]
      have hd := downloadChunk_d_ge (responses i (cs + d)) (cs + d) d
      by_cases h2 : ce < cs + (downloadChunk (responses i (cs + d)) (cs + d) d).downloaded
      · rw [if_pos h2]; exact hd
      · rw [if_neg h2]
        by_cases h3 : (downloadChunk (responses i (cs + d)) (cs + d) d).error = none
        · rw [if_pos h3]; exact hd
        · rw [if_neg h3]; exact le_trans hd (ih (i + 1) _ _ _)

theorem retryGo_attempts_ge (responses : Nat → Int → RangedResponse) (cs ce : Int) :
    ∀ (r i : Nat) (d : Int) (sl : List Nat) (le : Option String),
      i ≤ (retryGo responses cs ce r i d sl le).attemptsMade := by
  intro r
  induction r with
  | zero => intro i d sl le; rw [retryGo_zero]
  | succ r ih =>
    intro i d sl le
    rw [retryGo_succ]
    by_cases h1 : ce < cs + d
    · rw [if_pos h1]
    · rw [if_neg h1]
      by_cases h2 : ce < cs + (downloadChunk (responses i (cs + d)) (cs + d) d).downloaded
      · rw [if_pos h2]; exact Nat.le_succ i
      · rw [if_neg h2]
        by_cases h3 : (downloadChunk (responses i (cs + d)) (cs + d) d).error = none
        · rw [if_pos h3]; exact Nat.le_succ i
        · rw [if_neg h3]; exact le_trans (Nat.le_succ i) (ih (i + 1) _ _ _)

theorem retryGo_attempts_le (responses : Nat → Int → RangedResponse) (cs ce : Int) :
    ∀ (r i : Nat) (d : Int) (sl : List Nat) (le : Option String),
      (retryGo responses cs ce r i d sl le).attemptsMade ≤ i + r := by
  intro r
  induction r with
  | zero => intro i d sl le; rw [retryGo_zero]; show i ≤ i + 0; omega
  | succ r ih =>
    intro i d sl le
    rw [retryGo_succ]
    by_cases h1 : ce < cs + d
    · rw [if_pos h1]; show i ≤ i + (r + 1); omega
    · rw [if_neg h1]
      by_cases h2 : ce < cs + (downloadChunk (responses i (cs + d)) (cs + d) d).downloaded
      · rw [if_pos h2]; show i + 1 ≤ i + (r + 1); omega
      · rw [if_neg h2]
        by_cases h3 : (downloadChunk (responses i (cs + d)) (cs + d) d).error = none
        · rw [if_pos h3]; show i + 1 ≤ i + (r + 1); omega
        · rw [if_neg h3]
          have := ih (i + 1) (downloadChunk (responses i (cs + d)) (cs + d) d).downloaded
            (sl ++ [i + 1]) (downloadChunk (responses i (cs + d)) (cs + d) d).error
          omega

theorem retryGo_attempts_progress (responses : Nat → Int → RangedResponse) (cs ce : Int)
    (r i : Nat) (d : Int) (sl : List Nat) (le : Option String) (h : cs + d ≤ ce) :
    i + 1 ≤ (retryGo responses cs ce (r + 1) i d sl le).attemptsMade := by
  rw [retryGo_succ, if_neg (not_lt.mpr h)]
  by_cases h2 : ce < cs + (downloadChunk (responses i (cs + d)) (cs + d) d).downloaded
  · rw [if_pos h2]
  · rw [if_neg h2]
    by_cases h3 : (downloadChunk (responses i (cs + d)) (cs + d) d).error = none
    · rw [if_pos h3]
    · rw [if_neg h3]; exact retryGo_attempts_ge responses cs ce r (i + 1) _ _ _

theorem retryGo_d_le (responses : Nat → Int → RangedResponse) (cs ce : Int)
    (hhr : serverHonorsRange responses ce) :
    ∀ (r i : Nat) (d : Int) (sl : List Nat) (le : Option String),
      d ≤ ce - cs + 1 → (retryGo responses cs ce r i d sl le).downloaded ≤ ce - cs + 1 := by
  intro r
  induction r with
  | zero => intro i d sl le hb; rw [retryGo_zero]; exact hb
  | succ r ih =>
    intro i d sl le hb
    rw [retryGo_succ]
    by_cases h1 : ce < cs + d
    · rw [if_pos h1]; exact hb
    · rw [if_neg h1]
      have hs : cs + d ≤ ce := not_lt.mp h1
      have hatt : (downloadChunk (responses i (cs + d)) (cs + d) d).downloaded ≤ ce - cs + 1 := by
        by_cases h206 : (responses i (cs + d)).status = 206
        · have hdl := downloadChunk_206_downloaded (responses i (cs + d)) (cs + d) d h206
          have hsum := hhr i (cs + d) hs h206
          omega
        · have hdl := downloadChunk_not206_downloaded (responses i (cs + d)) (cs + d) d h206
          omega
      by_cases h2 : ce < cs + (downloadChunk (responses i (cs + d)) (cs + d) d).downloaded
      · rw [if_pos h2]; exact hatt
      · rw [if_neg h2]
        by_cases h3 : (downloadChunk (responses i (cs + d)) (cs + d) d).error = none
        · rw [if_pos h3]; exact hatt
        · rw [if_neg h3]; exact ih (i + 1) _ _ _ hatt

theorem consMapShift (i r : Nat) :
    (i + 1) :: (List.range (r + 1)).map (fun k => i + 1 + k + 1) =
      (List.range (r + 1 + 1)).map (fun k => i + k + 1) := by
  rw [List.range_succ_eq_map (r + 1), List.map_cons, List.map_map]
  simp only [List.cons.injEq]
  refine ⟨by simp, ?_⟩
  apply List.map_congr_left
  intro k _
  simp only [Function.comp_apply]
  omega

theorem rangeMapShift (i r : Nat) (sl : List Nat) :
    (sl ++ [i + 1]) ++ (List.range (r + 1)).map (fun k => i + 1 + k + 1) =
      sl ++ (List.range (r + 1 + 1)).map (fun k => i + k + 1) := by
  rw [List.append_assoc, List.singleton_append, consMapShift]

theorem retryGo_allfail (responses : Nat → Int → RangedResponse) (cs ce : Int)
    (hfail : ∀ i s, (responses i s).status ≠ 206 ∧ (responses i s).status ≠ 416) :
    ∀ (r i : Nat) (d : Int) (sl : List Nat) (le : Option String), cs + d ≤ ce →
      retryGo responses cs ce (r + 1) i d sl le =
        ⟨d, some (retryErrMsg (some (chunkErrMsg (responses (i + r) (cs + d))))),
          sl ++ (List.range (r + 1)).map (fun k => i + k + 1), i + r + 1⟩ := by
  intro r
  induction r with
  | zero =>
    intro i d sl le h
    have hd := downloadChunk_not206_downloaded (responses i (cs + d)) (cs + d) d
      (hfail i (cs + d)).1
    have herr : (downloadChunk (responses i (cs + d)) (cs + d) d).error =
        some (chunkErrMsg (responses i (cs + d))) := by
      rw [downloadChunk_fail _ _ _ (hfail i (cs + d)).1 (hfail i (cs + d)).2]
    rw [retryGo_succ, if_neg (not_lt.mpr h), hd, if_neg (not_lt.mpr h), herr,
      if_neg (by simp), retryGo_zero]
    simp [show List.range 1 = [0] from by decide]
  | succ r ih =>
    intro i d sl le h
    have hd := downloadChunk_not206_downloaded (responses i (cs + d)) (cs + d) d
      (hfail i (cs + d)).1
    have herr : (downloadChunk (responses i (cs + d)) (cs + d) d).error =
        some (chunkErrMsg (responses i (cs + d))) := by
      rw [downloadChunk_fail _ _ _ (hfail i (cs + d)).1 (hfail i (cs + d)).2]
    rw [retryGo_succ, if_neg (not_lt.mpr h), hd, if_neg (not_lt.mpr h), herr,
      if_neg (by simp)]
    rw [ih (i + 1) d (sl ++ [i + 1]) (some (chunkErrMsg (responses i (cs + d)))) h]
    have hidx : i + 1 + r = i + (r + 1) := by omega
    rw [hidx, rangeMapShift]

theorem retry_first416 (responses : Nat → Int → RangedResponse) (cs ce d0 : Int)
    (h : cs + d0 ≤ ce) (h416 : (responses 0 (cs + d0)).status = 416) :
    downloadChunkWithRetry responses cs ce d0 = ⟨d0, none, [], 1⟩ := by
  show retryGo responses cs ce (4 + 1) 0 d0 [] none = _
  rw [retryGo_succ, if_neg (not_lt.mpr h),
    downloadChunk_416 (responses 0 (cs + d0)) (cs + d0) d0 h416]
  dsimp only
  rw [if_neg (not_lt.mpr h), if_pos rfl]

/-! ### Claims C5, C6, C9, C10 -/

/-- C5 counterexample: with a server that always fails, the fetcher sleeps
after EVERY failed attempt, the fifth included — the backoff trace is
`[1, 2, 3, 4, 5]`, not the `[1, 2, 3, 4]` the claim implies ("no sleep at any
other point" than before attempts 1–4). -/
theorem claim_C5_counterexample :
    downloadChunkWithRetry resp500 0 9 0 =
      ⟨0, some "failed after 5 retries, last error: unexpected status: 500", [1, 2, 3, 4, 5], 5⟩ ∧
    ([1, 2, 3, 4, 5] : List Nat) ≠ [1, 2, 3, 4] :=
  ⟨rfl, by decide⟩

/-- C5 amended: a segment fetcher attempts its segment at most 5 times and
sleeps `i + 1` seconds after each failed attempt `i` (0-based) — 1s, 2s, 3s,
4s after failures 1 through 4 AND 5s after the fifth, final failure — and
then returns an error wrapping the last attempt's failure; the orchestrator
performs no re-planning (its fan-out only prints the error, see C1). -/
theorem claim_C5_amended :
    (∀ responses cs ce (d0 : Int),
      (downloadChunkWithRetry responses cs ce d0).attemptsMade ≤ 5) ∧
    (∀ responses cs ce (d0 : Int),
      (∀ i s, (responses i s).status ≠ 206 ∧ (responses i s).status ≠ 416) →
      cs + d0 ≤ ce →
      downloadChunkWithRetry responses cs ce d0 =
        ⟨d0, some (retryErrMsg (some (chunkErrMsg (responses 4 (cs + d0))))),
          [1, 2, 3, 4, 5], 5⟩) := by
  constructor
  · intro responses cs ce d0
    exact retryGo_attempts_le responses cs ce 5 0 d0 [] none
  · intro responses cs ce d0 hfail h
    show retryGo responses cs ce (4 + 1) 0 d0 [] none = _
    rw [retryGo_allfail responses cs ce hfail 4 0 d0 [] none h]
    simp [show List.range (4 + 1) = [0, 1, 2, 3, 4] from by decide]

/-- C5 amended witness: the all-500 server exercised through the amended
theorem. -/
theorem claim_C5_amended_witness :
    downloadChunkWithRetry resp500 0 9 0 =
      ⟨0, some "failed after 5 retries, last error: unexpected status: 500",
        [1, 2, 3, 4, 5], 5⟩ :=
  (claim_C5_amended.2 resp500 0 9 0
    (fun i s => ⟨by simp [resp500], by simp [resp500]⟩) (by decide)).trans rfl

/-- C6: a ranged-GET attempt streams the body only on 206 (its byte writes
are empty for every other status); a 200 response yields an error having
written nothing; a 416 response yields success with nothing written; any
other status yields an error; an erroring first attempt is retried (a second
attempt happens whenever the chunk is incomplete); and a 416 first attempt
makes the whole fetcher return success at once. -/
theorem claim_C6 :
    (∀ resp (s d : Int), resp.status = 200 →
      downloadChunk resp s d =
        ⟨0, d, [], some "server returned 200 OK instead of 206 Partial Content (Range ignored)"⟩) ∧
    (∀ resp (s d : Int), resp.status = 416 → downloadChunk resp s d = ⟨0, d, [], none⟩) ∧
    (∀ resp (s d : Int), resp.status ≠ 200 → resp.status ≠ 206 → resp.status ≠ 416 →
      downloadChunk resp s d = ⟨0, d, [], some ("unexpected status: " ++ toString resp.status)⟩) ∧
    (∀ resp (s d : Int), (downloadChunk resp s d).writes ≠ [] → resp.status = 206) ∧
    (∀ resp (s d : Int), resp.status = 206 →
      (downloadChunk resp s d).totalWritten = (sumReads resp.reads : Int)) ∧
    (∀ responses cs ce (d0 : Int), cs + d0 ≤ ce →
      (responses 0 (cs + d0)).status ≠ 206 → (responses 0 (cs + d0)).status ≠ 416 →
      2 ≤ (downloadChunkWithRetry responses cs ce d0).attemptsMade) ∧
    (∀ responses cs ce (d0 : Int), cs + d0 ≤ ce → (responses 0 (cs + d0)).status = 416 →
      (downloadChunkWithRetry responses cs ce d0).error = none ∧
      (downloadChunkWithRetry responses cs ce d0).downloaded = d0 ∧
      (downloadChunkWithRetry responses cs ce d0).attemptsMade = 1) := by
  refine ⟨downloadChunk_200, downloadChunk_416, downloadChunk_other, ?_, ?_, ?_, ?_⟩
  · intro resp s d hw
    by_contra h206
    exact hw (downloadChunk_not206_writes resp s d h206)
  · intro resp s d h
    rw [downloadChunk_206 resp s d h]
    show (streamReads s d resp.reads).1 = _
    rw [streamReads]
    have := (streamFold s resp.reads 0 d []).1
    omega
  · intro responses cs ce d0 h h206 h416
    show 2 ≤ (retryGo responses cs ce (4 + 1) 0 d0 [] none).attemptsMade
    have hd := downloadChunk_not206_downloaded (responses 0 (cs + d0)) (cs + d0) d0 h206
    have herr : (downloadChunk (responses 0 (cs + d0)) (cs + d0) d0).error =
        some (chunkErrMsg (responses 0 (cs + d0))) := by
      rw [downloadChunk_fail _ _ _ h206 h416]
    rw [retryGo_succ, if_neg (not_lt.mpr h), hd, if_neg (not_lt.mpr h), herr,
      if_neg (by simp)]
    exact retryGo_attempts_progress responses cs ce 3 1 d0 ([] ++ [0 + 1])
      (some (chunkErrMsg (responses 0 (cs + d0)))) h
  · intro responses cs ce d0 h h416
    rw [retry_first416 responses cs ce d0 h h416]
    exact ⟨rfl, rfl, rfl⟩

/-- C6 witness: a 200 response at a concrete attempt fails without writing;
a 416 first attempt ends the fetcher successfully after one attempt. -/
theorem claim_C6_witness :
    downloadChunk ⟨200, [], ReadEnd.eof⟩ 0 5 =
      ⟨0, 5, [], some "server returned 200 OK instead of 206 Partial Content (Range ignored)"⟩ ∧
    (downloadChunkWithRetry resp416 0 9 3).attemptsMade = 1 :=
  ⟨claim_C6.1 ⟨200, [], ReadEnd.eof⟩ 0 5 rfl,
   (claim_C6.2.2.2.2.2.2 resp416 0 9 3 (by decide) rfl).2.2⟩

theorem head?_scanl (f : Int → Nat → Int) (b : Int) (l : List Nat) :
    (List.scanl f b l).head? = some b := by
  cases l with
  | nil => rw [List.scanl_nil]; rfl
  | cons n rest => rw [List.scanl_cons]; rfl

theorem downloadedTrace_chain : ∀ (reads : List Nat) (d0 : Int),
    List.Chain' (fun a b => a ≤ b) (downloadedTrace d0 reads) := by
  intro reads
  induction reads with
  | nil => intro d0; rw [downloadedTrace, List.scanl_nil]; exact List.chain'_singleton d0
  | cons n rest ih =>
    intro d0
    rw [downloadedTrace, List.scanl_cons, List.singleton_append]
    refine List.chain'_cons'.mpr ⟨?_, ?_⟩
    · intro b hb
      rw [head?_scanl] at hb
      simp only [Option.mem_def, Option.some_inj] at hb
      subst hb
      by_cases hn : 0 < n
      · simp only [if_pos hn]; omega
      · simp only [if_neg hn]; exact le_rfl
    · have := ih (if 0 < n then d0 + n else d0)
      rw [downloadedTrace] at this
      exact this

/-- C9: the downloaded counter is monotone — within one streaming attempt its
successive values form a non-decreasing chain, a single attempt never
decreases it, and the whole retry loop never decreases it; against a server
that honors ranges it never exceeds `end - start + 1`; and (given that bound)
the code's completeness test `start + downloaded > end` holds exactly at
`downloaded = end - start + 1`. -/
theorem claim_C9 :
    (∀ (d0 : Int) (reads : List Nat),
      List.Chain' (fun a b => a ≤ b) (downloadedTrace d0 reads)) ∧
    (∀ resp (s d : Int), d ≤ (downloadChunk resp s d).downloaded) ∧
    (∀ responses (cs ce d0 : Int),
      d0 ≤ (downloadChunkWithRetry responses cs ce d0).downloaded) ∧
    (∀ responses (cs ce d0 : Int), serverHonorsRange responses ce → d0 ≤ ce - cs + 1 →
      (downloadChunkWithRetry responses cs ce d0).downloaded ≤ ce - cs + 1) ∧
    (∀ cs ce d : Int, d ≤ ce - cs + 1 → (chunkDone cs ce d = true ↔ d = ce - cs + 1)) := by
  refine ⟨fun d0 reads => downloadedTrace_chain reads d0, downloadChunk_d_ge, ?_, ?_, ?_⟩
  · intro responses cs ce d0
    exact retryGo_d_ge responses cs ce 5 0 d0 [] none
  · intro responses cs ce d0 hhr hb
    exact retryGo_d_le responses cs ce hhr 5 0 d0 [] none hb
  · intro cs ce d hb
    simp only [chunkDone, decide_eq_true_eq]
    omega

/-- C9 witness: the completeness test at a full counter, and the bound for
the all-500 server (vacuously range-honoring) evaluated through the
theorem. -/
theorem claim_C9_witness :
    chunkDone 0 9 10 = true ∧
    (downloadChunkWithRetry resp500 0 9 0).downloaded ≤ 9 - 0 + 1 :=
  ⟨(claim_C9.2.2.2.2 0 9 10 (by decide)).mpr (by decide),
   claim_C9.2.2.2.1 resp500 0 9 0 (fun i s _ h => by simp [resp500] at h) (by decide)⟩

/-- C10: a 416 answer to a ranged GET ends the fetcher successfully WITHOUT
touching the downloaded counter: the counter keeps its pre-request value, so
a segment finished through 416 still shows `downloaded < end - start + 1`,
and the checkpointer's snapshot copies exactly those in-memory counter
values into the sidecar. -/
theorem claim_C10 :
    (∀ responses (cs ce d0 : Int), cs + d0 ≤ ce → (responses 0 (cs + d0)).status = 416 →
      (downloadChunkWithRetry responses cs ce d0).downloaded = d0 ∧
      (downloadChunkWithRetry responses cs ce d0).error = none ∧
      (d0 < ce - cs + 1 →
        (downloadChunkWithRetry responses cs ce d0).downloaded < ce - cs + 1)) ∧
    (∀ st : DownloadState,
      (saveSnapshot st).Chunks.map ChunkState.Downloaded =
        st.Chunks.map ChunkState.Downloaded) := by
  constructor
  · intro responses cs ce d0 h h416
    rw [retry_first416 responses cs ce d0 h h416]
    exact ⟨rfl, rfl, fun hlt => hlt⟩
  · intro st
    rw [saveSnapshot]
    dsimp only
    rw [List.map_map]
    rfl

/-- C10 witness: a 416 first answer on chunk `[0, 9]` with 3 bytes downloaded
leaves the counter at 3 (< 10), with success. -/
theorem claim_C10_witness :
    (downloadChunkWithRetry resp416 0 9 3).downloaded = 3 ∧
    (downloadChunkWithRetry resp416 0 9 3).error = none ∧
    (downloadChunkWithRetry resp416 0 9 3).downloaded < 9 - 0 + 1 :=
  ⟨(claim_C10.1 resp416 0 9 3 (by decide) rfl).1,
   (claim_C10.1 resp416 0 9 3 (by decide) rfl).2.1,
   (claim_C10.1 resp416 0 9 3 (by decide) rfl).2.2 (by decide)⟩

end GDL
